import Mathlib

/-
Shallow embedding of the Conway's Game of Life engine of `main.go`
(AltwargEvan/golang-opengl).  The engine consists of the cell record, the
constants `rows` and `columns`, the neighbor counter `aliveNeighbors`, the
generation step `getNextState` and the constructor `makeCells`/`newCell`.
Rendering, windowing and OpenGL calls are presentation plumbing; the only
traces they leave in the engine's data are the `drawable` handle (modelled
as an opaque number produced by an oracle) and the random draws of
`rand.Intn(2)` (modelled as an oracle `Nat → Bool` consumed in creation
order).  Go's in-place pointer mutation is modelled by explicit state
passing: each loop iteration of `getNextState` maps a grid to a grid, and
the two passes are folds over the iteration space in the source's row-major
order.  An out-of-range slice access (a Go panic) is totalised with a
default dead cell; the in-bounds theorem for claim C4 shows the default is
never consulted on a well-formed grid.
-/

namespace GameOfLife

/-- The `cell` struct of the source: GL handle, double-buffered alive state
and immutable grid coordinates. -/
structure Cell where
  drawable : Nat
  alive : Bool
  aliveNext : Bool
  x : Int
  y : Int
deriving DecidableEq

instance : Inhabited Cell := ⟨⟨0, false, false, 0, 0⟩⟩

/-- Source constant `rows = 30`. -/
def rows : Nat := 30

/-- Source constant `columns = 30`. -/
def columns : Nat := 30

/-- The `[][]*cell` grid. -/
abbrev Grid := List (List Cell)

/-- The slice access `cells[i][j]`, totalised with a default dead cell when
out of range (in Go that access panics; see claim C4). -/
def cellAt (g : Grid) (i j : Nat) : Cell :=
  (g.getD i []).getD j default

/-- Writing through the pointer `cells[i][j]`: replace that cell. -/
def setCell (g : Grid) (i j : Nat) (c : Cell) : Grid :=
  g.set i ((g.getD i []).set j c)

/-- The shape every grid of the program has: `rows` outer entries, each of
length `columns`. -/
def WellFormed (g : Grid) : Prop :=
  g.length = rows ∧ ∀ i, i < g.length → (g.getD i []).length = columns

/-- The guard of the inner loop of `aliveNeighbors`:
`(i == x && j == y) || i < 0 || j < 0 || i >= columns || j >= rows`. -/
def skipNeighbor (x y i j : Int) : Bool :=
  (i == x && j == y) || decide (i < 0) || decide (j < 0) ||
    decide (i ≥ (columns : Int)) || decide (j ≥ (rows : Int))

/-- One iteration of the loop body of `aliveNeighbors`: 0 when skipped,
1 when `cells[i][j].alive`, else 0. -/
def contrib (g : Grid) (x y i j : Int) : Nat :=
  if skipNeighbor x y i j then 0
  else if (cellAt g i.toNat j.toNat).alive then 1 else 0

/-- The iteration space of the two nested loops of `aliveNeighbors`,
`i` from `x-1` to `x+1` outer, `j` from `y-1` to `y+1` inner. -/
def neighborOffsets (x y : Int) : List (Int × Int) :=
  [(x-1, y-1), (x-1, y), (x-1, y+1),
   (x, y-1), (x, y), (x, y+1),
   (x+1, y-1), (x+1, y), (x+1, y+1)]

/-- `aliveNeighbors(cells, x, y)` of the source. -/
def aliveNeighbors (g : Grid) (x y : Int) : Nat :=
  (neighborOffsets x y).foldl (fun count p => count + contrib g x y p.1 p.2) 0

/-- The switch in the first pass of `getNextState`, producing the value the
body leaves in `c.aliveNext`: the empty `case !c.alive:` branch keeps the
cell's current `aliveNext`. -/
def nextAliveNextVal (g : Grid) (x y : Nat) : Bool :=
  let c := cellAt g x y
  let n := aliveNeighbors g (x : Int) (y : Int)
  if !c.alive && n == 3 then true
  else if !c.alive then c.aliveNext
  else if c.alive && (decide (n < 2) || decide (n > 3)) then false
  else true

/-- One iteration of the first loop of `getNextState` at position `p`. -/
def step1 (g : Grid) (p : Nat × Nat) : Grid :=
  setCell g p.1 p.2 { cellAt g p.1 p.2 with aliveNext := nextAliveNextVal g p.1 p.2 }

/-- One iteration of the second loop of `getNextState`: `c.alive = c.aliveNext`. -/
def step2 (g : Grid) (p : Nat × Nat) : Grid :=
  setCell g p.1 p.2 { cellAt g p.1 p.2 with alive := (cellAt g p.1 p.2).aliveNext }

/-- The first pass, run over an explicit list of positions. -/
def pass1Seq (ps : List (Nat × Nat)) (g : Grid) : Grid :=
  ps.foldl step1 g

/-- The second pass, run over an explicit list of positions. -/
def pass2Seq (ps : List (Nat × Nat)) (g : Grid) : Grid :=
  ps.foldl step2 g

/-- The row-major iteration space of `for x := range cells { for y := range cells[x] }`. -/
def positionsOf (g : Grid) : List (Nat × Nat) :=
  (List.range g.length).flatMap fun x =>
    (List.range (g.getD x []).length).map fun y => (x, y)

/-- `getNextState(cells)`: first pass computing every `aliveNext`, second
pass copying `aliveNext` into `alive`, both in row-major order. -/
def getNextState (g : Grid) : Grid :=
  pass2Seq (positionsOf (pass1Seq (positionsOf g) g)) (pass1Seq (positionsOf g) g)

/-- `newCell(x, y)`: the vertex geometry and `makeVao` are OpenGL effects
whose resulting handle is modelled by the oracle `vao`; `rand.Intn(2) == 1`
is modelled by the oracle `rnd` consumed in creation order, the cell at
(x, y) being the `x*columns + y`-th cell created. -/
def newCell (rnd : Nat → Bool) (vao : Nat → Nat → Nat) (x y : Nat) : Cell :=
  { drawable := vao x y
    alive := rnd (x * columns + y)
    aliveNext := false
    x := (x : Int)
    y := (y : Int) }

/-- `makeCells()`: `rows` outer entries, entry `x` filled by appending
`newCell(x, y)` for `y = 0, …, columns-1`. -/
def makeCells (rnd : Nat → Bool) (vao : Nat → Nat → Nat) : Grid :=
  (List.range rows).map fun x =>
    (List.range columns).map fun y => newCell rnd vao x y

/-- The grids the program can hold between `advance` calls: a fresh
`makeCells()` result, advanced by `getNextState` any number of times. -/
inductive Reachable : Grid → Prop
  | init (rnd : Nat → Bool) (vao : Nat → Nat → Nat) : Reachable (makeCells rnd vao)
  | step (g : Grid) : Reachable g → Reachable (getNextState g)

/-- Modelled from the spec: the B3/S23 decision table of §4.1
(dead: becomes alive exactly when the count is 3; alive: stays alive
exactly when the count is 2 or 3). -/
def lifeTable (alive : Bool) (n : Nat) : Bool :=
  if alive then (if n < 2 ∨ n > 3 then false else true)
  else (if n = 3 then true else false)

/-- Modelled from the spec (design note §9): the same switch with the empty
dead-cell branch replaced by an explicit `aliveNext = false`. -/
def nextAliveNextValExplicit (g : Grid) (x y : Nat) : Bool :=
  let c := cellAt g x y
  let n := aliveNeighbors g (x : Int) (y : Int)
  if !c.alive && n == 3 then true
  else if !c.alive then false
  else if c.alive && (decide (n < 2) || decide (n > 3)) then false
  else true

/-- Flip a single cell's `alive` field (used to state independence facts). -/
def setAlive (g : Grid) (i j : Nat) (b : Bool) : Grid :=
  setCell g i j { cellAt g i j with alive := b }

/-- Every cell's `alive` field is false. -/
def allDead (g : Grid) : Prop :=
  ∀ i, i < g.length → ∀ j, j < (g.getD i []).length → (cellAt g i j).alive = false

/-- Structural identity in the sense of the spec: same dimensions and the
same `alive` and `aliveNext` value cell for cell (coordinates and drawable
handles may differ). -/
def StructIdent (g g' : Grid) : Prop :=
  g.length = g'.length ∧
  (∀ i, i < g.length → (g.getD i []).length = (g'.getD i []).length) ∧
  (∀ i, i < g.length → ∀ j, j < (g.getD i []).length →
    (cellAt g i j).alive = (cellAt g' i j).alive ∧
    (cellAt g i j).aliveNext = (cellAt g' i j).aliveNext)

/-- A position that is in bounds of the grid's own shape. -/
def inB (g : Grid) (p : Nat × Nat) : Prop :=
  p.1 < g.length ∧ p.2 < (g.getD p.1 []).length

/-- A sample random stream, used to build concrete grids. -/
def wRnd : Nat → Bool := fun n => n % 3 == 0

/-- A concrete freshly constructed grid. -/
def wGrid : Grid := makeCells wRnd fun _ _ => 0

/-- The same grid with different drawable handles. -/
def wGrid2 : Grid := makeCells wRnd fun x y => x * 100 + y + 1

/-- A 30×30 grid that is all dead in `alive` but carries stale `aliveNext = true`. -/
def cBad : Grid :=
  (List.range rows).map fun x => (List.range columns).map fun y =>
    { drawable := 0, alive := false, aliveNext := true, x := (x : Int), y := (y : Int) }

/-- A 30×30 grid with both buffers all false. -/
def wDead : Grid :=
  (List.range rows).map fun x => (List.range columns).map fun y =>
    { drawable := 0, alive := false, aliveNext := false, x := (x : Int), y := (y : Int) }

instance (g : Grid) (p : Nat × Nat) : Decidable (inB g p) := by
  unfold inB; infer_instance

instance (g : Grid) : Decidable (WellFormed g) := by
  unfold WellFormed; infer_instance

instance (g : Grid) : Decidable (allDead g) := by
  unfold allDead; infer_instance

instance (g g' : Grid) : Decidable (StructIdent g g') := by
  unfold StructIdent; infer_instance

section Infrastructure

lemma getD_of_lt {α : Type} (l : List α) (i : Nat) (d : α) (h : i < l.length) :
    l.getD i d = l[i] := by
  rw [List.getD_eq_getElem?_getD, List.getElem?_eq_getElem h]
  rfl

lemma getD_of_le {α : Type} (l : List α) (i : Nat) (d : α) (h : l.length ≤ i) :
    l.getD i d = d := by
  rw [List.getD_eq_getElem?_getD, List.getElem?_eq_none h]
  rfl

lemma length_setCell (g : Grid) (i j : Nat) (c : Cell) :
    (setCell g i j c).length = g.length :=
  List.length_set ..

lemma row_setCell (g : Grid) (i j : Nat) (c : Cell) (k : Nat) :
    (setCell g i j c).getD k [] =
      if k = i ∧ i < g.length then (g.getD i []).set j c else g.getD k [] := by
  unfold setCell
  by_cases hk : k = i
  · subst hk
    by_cases hi : k < g.length
    · simp only [hi, and_true, if_pos rfl]
      rw [List.getD_eq_getElem?_getD, List.getElem?_set_self (by simpa using hi)]
      simp
    · rw [List.set_eq_of_length_le (by omega)]
      simp [hi]
  · rw [List.getD_eq_getElem?_getD, List.getElem?_set_ne (fun h => hk h.symm),
      ← List.getD_eq_getElem?_getD]
    simp [hk]

lemma rowLen_setCell (g : Grid) (i j : Nat) (c : Cell) (k : Nat) :
    ((setCell g i j c).getD k []).length = (g.getD k []).length := by
  rw [row_setCell]
  by_cases h : k = i ∧ i < g.length
  · rw [if_pos h, List.length_set, h.1]
  · rw [if_neg h]

lemma cellAt_setCell (g : Grid) (i j : Nat) (c : Cell) (k l : Nat) :
    cellAt (setCell g i j c) k l =
      if k = i ∧ l = j ∧ i < g.length ∧ j < (g.getD i []).length then c
      else cellAt g k l := by
  unfold cellAt
  rw [row_setCell]
  by_cases hk : k = i ∧ i < g.length
  · rw [if_pos hk]
    obtain ⟨hk1, hk2⟩ := hk
    subst hk1
    by_cases hl : l = j
    · subst hl
      by_cases hj : l < (g.getD k []).length
      · rw [if_pos ⟨rfl, rfl, hk2, hj⟩]
        rw [List.getD_eq_getElem?_getD, List.getElem?_set_self (by simpa using hj)]
        simp
      · rw [if_neg (by tauto)]
        rw [List.getD_eq_getElem?_getD,
          List.getElem?_eq_none (by rw [List.length_set]; omega),
          List.getD_eq_getElem?_getD, List.getElem?_eq_none (by omega)]
    · rw [if_neg (by tauto)]
      rw [List.getD_eq_getElem?_getD, List.getElem?_set_ne (fun h => hl h.symm),
        ← List.getD_eq_getElem?_getD]
  · rw [if_neg hk, if_neg (by tauto)]

lemma cellAt_setCell_self (g : Grid) (i j : Nat) (c : Cell)
    (hi : i < g.length) (hj : j < (g.getD i []).length) :
    cellAt (setCell g i j c) i j = c := by
  rw [cellAt_setCell, if_pos ⟨rfl, rfl, hi, hj⟩]

lemma cellAt_setCell_ne (g : Grid) (i j : Nat) (c : Cell) (k l : Nat)
    (h : (k, l) ≠ (i, j)) :
    cellAt (setCell g i j c) k l = cellAt g k l := by
  rw [cellAt_setCell, if_neg]
  rintro ⟨rfl, rfl, -, -⟩
  exact h rfl

lemma cellAt_out_of_bounds (g : Grid) (k l : Nat)
    (h : ¬ (k < g.length ∧ l < (g.getD k []).length)) :
    cellAt g k l = default := by
  unfold cellAt
  by_cases hk : k < g.length
  · exact getD_of_le _ _ _ (by push_neg at h; exact h hk)
  · rw [getD_of_le g k [] (by omega)]
    rfl

end Infrastructure

section Passes

lemma length_step1 (g : Grid) (p : Nat × Nat) : (step1 g p).length = g.length :=
  length_setCell ..

lemma rowLen_step1 (g : Grid) (p : Nat × Nat) (k : Nat) :
    ((step1 g p).getD k []).length = (g.getD k []).length :=
  rowLen_setCell ..

lemma length_step2 (g : Grid) (p : Nat × Nat) : (step2 g p).length = g.length :=
  length_setCell ..

lemma rowLen_step2 (g : Grid) (p : Nat × Nat) (k : Nat) :
    ((step2 g p).getD k []).length = (g.getD k []).length :=
  rowLen_setCell ..

lemma length_pass1Seq (ps : List (Nat × Nat)) : ∀ g : Grid,
    (pass1Seq ps g).length = g.length := by
  induction ps with
  | nil => intro g; rfl
  | cons p rest ih =>
      intro g
      show (pass1Seq rest (step1 g p)).length = g.length
      rw [ih, length_step1]

lemma rowLen_pass1Seq (ps : List (Nat × Nat)) : ∀ (g : Grid) (k : Nat),
    ((pass1Seq ps g).getD k []).length = (g.getD k []).length := by
  induction ps with
  | nil => intro g k; rfl
  | cons p rest ih =>
      intro g k
      show ((pass1Seq rest (step1 g p)).getD k []).length = _
      rw [ih, rowLen_step1]

lemma length_pass2Seq (ps : List (Nat × Nat)) : ∀ g : Grid,
    (pass2Seq ps g).length = g.length := by
  induction ps with
  | nil => intro g; rfl
  | cons p rest ih =>
      intro g
      show (pass2Seq rest (step2 g p)).length = g.length
      rw [ih, length_step2]

lemma rowLen_pass2Seq (ps : List (Nat × Nat)) : ∀ (g : Grid) (k : Nat),
    ((pass2Seq ps g).getD k []).length = (g.getD k []).length := by
  induction ps with
  | nil => intro g k; rfl
  | cons p rest ih =>
      intro g k
      show ((pass2Seq rest (step2 g p)).getD k []).length = _
      rw [ih, rowLen_step2]

lemma cellAt_step1_ne (g : Grid) (p : Nat × Nat) (k l : Nat) (h : (k, l) ≠ p) :
    cellAt (step1 g p) k l = cellAt g k l :=
  cellAt_setCell_ne _ _ _ _ _ _ (by rcases p with ⟨a, b⟩; exact h)

lemma cellAt_step1_self (g : Grid) (p : Nat × Nat) (hp : inB g p) :
    cellAt (step1 g p) p.1 p.2 =
      { cellAt g p.1 p.2 with aliveNext := nextAliveNextVal g p.1 p.2 } :=
  cellAt_setCell_self _ _ _ _ hp.1 hp.2

lemma cellAt_step2_ne (g : Grid) (p : Nat × Nat) (k l : Nat) (h : (k, l) ≠ p) :
    cellAt (step2 g p) k l = cellAt g k l :=
  cellAt_setCell_ne _ _ _ _ _ _ (by rcases p with ⟨a, b⟩; exact h)

lemma cellAt_step2_self (g : Grid) (p : Nat × Nat) (hp : inB g p) :
    cellAt (step2 g p) p.1 p.2 =
      { cellAt g p.1 p.2 with alive := (cellAt g p.1 p.2).aliveNext } :=
  cellAt_setCell_self _ _ _ _ hp.1 hp.2

lemma alive_step1 (g : Grid) (p : Nat × Nat) (k l : Nat) :
    (cellAt (step1 g p) k l).alive = (cellAt g k l).alive := by
  unfold step1
  rw [cellAt_setCell]
  by_cases h : k = p.1 ∧ l = p.2 ∧ p.1 < g.length ∧ p.2 < (g.getD p.1 []).length
  · rw [if_pos h]
    obtain ⟨rfl, rfl, -, -⟩ := h
    rfl
  · rw [if_neg h]

lemma aliveNeighbors_congr (g g' : Grid) (x y : Int)
    (h : ∀ i j : Nat, (cellAt g' i j).alive = (cellAt g i j).alive) :
    aliveNeighbors g' x y = aliveNeighbors g x y := by
  simp only [aliveNeighbors, neighborOffsets, List.foldl_cons, List.foldl_nil,
    contrib, h]

lemma aliveNeighbors_step1 (g : Grid) (p : Nat × Nat) (x y : Int) :
    aliveNeighbors (step1 g p) x y = aliveNeighbors g x y :=
  aliveNeighbors_congr _ _ _ _ (alive_step1 g p)

lemma nextVal_step1_ne (g : Grid) (p q : Nat × Nat) (h : q ≠ p) :
    nextAliveNextVal (step1 g p) q.1 q.2 = nextAliveNextVal g q.1 q.2 := by
  unfold nextAliveNextVal
  rw [cellAt_step1_ne g p q.1 q.2 (by rcases q with ⟨a, b⟩; exact h),
    aliveNeighbors_step1]

lemma pass1Seq_cellAt (ps : List (Nat × Nat)) : ∀ g : Grid, ps.Nodup →
    (∀ p ∈ ps, inB g p) → ∀ k l : Nat,
    cellAt (pass1Seq ps g) k l =
      if (k, l) ∈ ps then
        { cellAt g k l with aliveNext := nextAliveNextVal g k l }
      else cellAt g k l := by
  induction ps with
  | nil => intro g _ _ k l; simp [pass1Seq]
  | cons p rest ih =>
      intro g hnd hb k l
      have hpin : inB g p := hb p (List.mem_cons_self _ _)
      have hnotp : p ∉ rest := (List.nodup_cons.mp hnd).1
      have hnd2 : rest.Nodup := (List.nodup_cons.mp hnd).2
      have hb2 : ∀ q ∈ rest, inB (step1 g p) q := by
        intro q hq
        obtain ⟨h1, h2⟩ := hb q (List.mem_cons_of_mem _ hq)
        exact ⟨by rw [length_step1]; exact h1, by rw [rowLen_step1]; exact h2⟩
      show cellAt (pass1Seq rest (step1 g p)) k l = _
      rw [ih (step1 g p) hnd2 hb2 k l]
      by_cases hmem : (k, l) ∈ rest
      · have hne : (k, l) ≠ p := fun h => hnotp (h ▸ hmem)
        rw [if_pos hmem, if_pos (List.mem_cons_of_mem _ hmem),
          cellAt_step1_ne g p k l hne, nextVal_step1_ne g p (k, l) hne]
      · rw [if_neg hmem]
        by_cases hp : (k, l) = p
        · rw [if_pos (by rw [hp]; exact List.mem_cons_self _ _), ← hp]
          have := cellAt_step1_self g p hpin
          rw [← hp] at this
          exact this
        · rw [if_neg (by
            intro hmem2
            rcases List.mem_cons.mp hmem2 with h | h
            · exact hp h
            · exact hmem h),
            cellAt_step1_ne g p k l hp]

lemma pass2Seq_cellAt (ps : List (Nat × Nat)) : ∀ g : Grid, ps.Nodup →
    (∀ p ∈ ps, inB g p) → ∀ k l : Nat,
    cellAt (pass2Seq ps g) k l =
      if (k, l) ∈ ps then
        { cellAt g k l with alive := (cellAt g k l).aliveNext }
      else cellAt g k l := by
  induction ps with
  | nil => intro g _ _ k l; simp [pass2Seq]
  | cons p rest ih =>
      intro g hnd hb k l
      have hpin : inB g p := hb p (List.mem_cons_self _ _)
      have hnotp : p ∉ rest := (List.nodup_cons.mp hnd).1
      have hnd2 : rest.Nodup := (List.nodup_cons.mp hnd).2
      have hb2 : ∀ q ∈ rest, inB (step2 g p) q := by
        intro q hq
        obtain ⟨h1, h2⟩ := hb q (List.mem_cons_of_mem _ hq)
        exact ⟨by rw [length_step2]; exact h1, by rw [rowLen_step2]; exact h2⟩
      show cellAt (pass2Seq rest (step2 g p)) k l = _
      rw [ih (step2 g p) hnd2 hb2 k l]
      by_cases hmem : (k, l) ∈ rest
      · have hne : (k, l) ≠ p := fun h => hnotp (h ▸ hmem)
        rw [if_pos hmem, if_pos (List.mem_cons_of_mem _ hmem),
          cellAt_step2_ne g p k l hne]
      · rw [if_neg hmem]
        by_cases hp : (k, l) = p
        · rw [if_pos (by rw [hp]; exact List.mem_cons_self _ _), ← hp]
          have := cellAt_step2_self g p hpin
          rw [← hp] at this
          exact this
        · rw [if_neg (by
            intro hmem2
            rcases List.mem_cons.mp hmem2 with h | h
            · exact hp h
            · exact hmem h),
            cellAt_step2_ne g p k l hp]

end Passes

section Characterization

lemma mem_positionsOf (g : Grid) (p : Nat × Nat) :
    p ∈ positionsOf g ↔ inB g p := by
  rcases p with ⟨a, b⟩
  unfold positionsOf inB
  simp only [List.mem_flatMap, List.mem_map, List.mem_range, Prod.mk.injEq]
  constructor
  · rintro ⟨x, hx, y, hy, rfl, rfl⟩
    exact ⟨hx, hy⟩
  · rintro ⟨ha, hb⟩
    exact ⟨a, ha, b, hb, rfl, rfl⟩

lemma nodup_positionsOf (g : Grid) : (positionsOf g).Nodup := by
  unfold positionsOf
  rw [List.nodup_flatMap]
  constructor
  · intro x _
    exact (List.nodup_range _).map (fun a b h => by
      simpa using congrArg Prod.snd h)
  · have key : ∀ x1 x2 : Nat, x1 ≠ x2 →
        (((List.range (g.getD x1 []).length).map fun y => (x1, y)).Disjoint
          ((List.range (g.getD x2 []).length).map fun y => (x2, y))) := by
      intro x1 x2 hne q hq1 hq2
      simp only [List.mem_map, List.mem_range] at hq1 hq2
      obtain ⟨y1, -, rfl⟩ := hq1
      obtain ⟨y2, -, h⟩ := hq2
      exact hne (congrArg Prod.fst h).symm
    exact (List.nodup_range _).imp fun hab => key _ _ hab

lemma positionsOf_congr (g g' : Grid) (h1 : g.length = g'.length)
    (h2 : ∀ k, (g.getD k []).length = (g'.getD k []).length) :
    positionsOf g = positionsOf g' := by
  unfold positionsOf
  rw [h1]
  congr 1
  funext x
  rw [h2]

lemma grid_ext (g g' : Grid) (h1 : g.length = g'.length)
    (h2 : ∀ i, i < g.length → (g.getD i []).length = (g'.getD i []).length)
    (h3 : ∀ i j, cellAt g i j = cellAt g' i j) : g = g' := by
  apply List.ext_get h1
  intro i hi hi2
  simp only [List.get_eq_getElem]
  apply List.ext_get
  · rw [← getD_of_lt g i [] hi, ← getD_of_lt g' i [] hi2]
    exact h2 i hi
  · intro j hj hj2
    simp only [List.get_eq_getElem] at hj hj2 ⊢
    have e1 : cellAt g i j = g[i][j] := by
      unfold cellAt
      rw [getD_of_lt g i [] hi]
      exact getD_of_lt _ j default hj
    have e2 : cellAt g' i j = g'[i][j] := by
      unfold cellAt
      rw [getD_of_lt g' i [] hi2]
      exact getD_of_lt _ j default hj2
    rw [← e1, ← e2]
    exact h3 i j

lemma pass1_wholeGrid (g : Grid) (ps : List (Nat × Nat))
    (hperm : ps.Perm (positionsOf g)) (k l : Nat) :
    cellAt (pass1Seq ps g) k l =
      if inB g (k, l) then
        { cellAt g k l with aliveNext := nextAliveNextVal g k l }
      else cellAt g k l := by
  rw [pass1Seq_cellAt ps g (hperm.nodup_iff.mpr (nodup_positionsOf g))
    (fun p hp => (mem_positionsOf g p).mp (hperm.mem_iff.mp hp)) k l]
  exact if_congr (by rw [hperm.mem_iff, mem_positionsOf]) rfl rfl

lemma pass2_wholeGrid (g : Grid) (ps : List (Nat × Nat))
    (hperm : ps.Perm (positionsOf g)) (k l : Nat) :
    cellAt (pass2Seq ps g) k l =
      if inB g (k, l) then
        { cellAt g k l with alive := (cellAt g k l).aliveNext }
      else cellAt g k l := by
  rw [pass2Seq_cellAt ps g (hperm.nodup_iff.mpr (nodup_positionsOf g))
    (fun p hp => (mem_positionsOf g p).mp (hperm.mem_iff.mp hp)) k l]
  exact if_congr (by rw [hperm.mem_iff, mem_positionsOf]) rfl rfl

lemma length_getNextState (g : Grid) : (getNextState g).length = g.length := by
  unfold getNextState
  rw [length_pass2Seq, length_pass1Seq]

lemma rowLen_getNextState (g : Grid) (k : Nat) :
    ((getNextState g).getD k []).length = (g.getD k []).length := by
  unfold getNextState
  rw [rowLen_pass2Seq, rowLen_pass1Seq]

lemma inB_pass1Seq (g : Grid) (ps : List (Nat × Nat)) (p : Nat × Nat) :
    inB (pass1Seq ps g) p ↔ inB g p := by
  unfold inB
  rw [length_pass1Seq, rowLen_pass1Seq]

lemma twoPass_cellAt (g : Grid) (ps1 ps2 : List (Nat × Nat))
    (h1 : ps1.Perm (positionsOf g)) (h2 : ps2.Perm (positionsOf g)) (k l : Nat) :
    cellAt (pass2Seq ps2 (pass1Seq ps1 g)) k l =
      if inB g (k, l) then
        { cellAt g k l with alive := nextAliveNextVal g k l,
                            aliveNext := nextAliveNextVal g k l }
      else cellAt g k l := by
  have hpos : positionsOf (pass1Seq ps1 g) = positionsOf g :=
    positionsOf_congr _ _ (length_pass1Seq ps1 g) (rowLen_pass1Seq ps1 g)
  rw [pass2_wholeGrid (pass1Seq ps1 g) ps2 (by rw [hpos]; exact h2) k l]
  by_cases hin : inB g (k, l)
  · rw [if_pos ((inB_pass1Seq g ps1 (k, l)).mpr hin), if_pos hin,
      pass1_wholeGrid g ps1 h1 k l, if_pos hin]
  · rw [if_neg (fun h => hin ((inB_pass1Seq g ps1 (k, l)).mp h)), if_neg hin,
      pass1_wholeGrid g ps1 h1 k l, if_neg hin]

lemma getNextState_cellAt (g : Grid) (k l : Nat) (h : inB g (k, l)) :
    cellAt (getNextState g) k l =
      { cellAt g k l with alive := nextAliveNextVal g k l,
                          aliveNext := nextAliveNextVal g k l } := by
  unfold getNextState
  rw [twoPass_cellAt g _ _ (List.Perm.refl _)
    (by rw [positionsOf_congr (pass1Seq (positionsOf g) g) g
      (length_pass1Seq _ g) (rowLen_pass1Seq _ g)]) k l, if_pos h]

lemma getNextState_cellAt_out (g : Grid) (k l : Nat) (h : ¬ inB g (k, l)) :
    cellAt (getNextState g) k l = cellAt g k l := by
  unfold getNextState
  rw [twoPass_cellAt g _ _ (List.Perm.refl _)
    (by rw [positionsOf_congr (pass1Seq (positionsOf g) g) g
      (length_pass1Seq _ g) (rowLen_pass1Seq _ g)]) k l, if_neg h]

end Characterization

section GridConstruction

lemma gridOfFn_cellAt (f : Nat → Nat → Cell) (n m i j : Nat) (hi : i < n) (hj : j < m) :
    cellAt ((List.range n).map fun x => (List.range m).map fun y => f x y) i j = f i j := by
  unfold cellAt
  have h1 : ((List.range n).map fun x => (List.range m).map fun y => f x y).getD i [] =
      (List.range m).map fun y => f i y := by
    rw [getD_of_lt _ _ _ (by simpa using hi)]
    rw [List.getElem_map, List.getElem_range]
  rw [h1, getD_of_lt _ _ _ (by simpa using hj)]
  rw [List.getElem_map, List.getElem_range]

lemma makeCells_cellAt (rnd : Nat → Bool) (vao : Nat → Nat → Nat) (i j : Nat)
    (hi : i < rows) (hj : j < columns) :
    cellAt (makeCells rnd vao) i j = newCell rnd vao i j :=
  gridOfFn_cellAt _ rows columns i j hi hj

lemma makeCells_wf (rnd : Nat → Bool) (vao : Nat → Nat → Nat) :
    WellFormed (makeCells rnd vao) := by
  constructor
  · simp [makeCells]
  · intro i hi
    simp only [makeCells, List.length_map, List.length_range] at hi
    unfold makeCells
    rw [getD_of_lt _ _ _ (by simpa using hi)]
    rw [List.getElem_map, List.getElem_range]
    simp

lemma makeCells_aliveNext (rnd : Nat → Bool) (vao : Nat → Nat → Nat) (i j : Nat) :
    (cellAt (makeCells rnd vao) i j).aliveNext = false := by
  by_cases h : i < rows ∧ j < columns
  · rw [makeCells_cellAt rnd vao i j h.1 h.2]
    rfl
  · rw [cellAt_out_of_bounds]
    · rfl
    · rintro ⟨h1, h2⟩
      apply h
      have hwf := makeCells_wf rnd vao
      exact ⟨by rwa [hwf.1] at h1, by rwa [hwf.2 i h1] at h2⟩

lemma reachable_wf (g : Grid) (h : Reachable g) : WellFormed g := by
  induction h with
  | init rnd vao => exact makeCells_wf rnd vao
  | step g _ ih =>
      obtain ⟨h1, h2⟩ := ih
      refine ⟨by rw [length_getNextState]; exact h1, ?_⟩
      intro i hi
      rw [rowLen_getNextState]
      exact h2 i (by rwa [length_getNextState] at hi)

lemma reachable_deadNext (g : Grid) (h : Reachable g) :
    ∀ k l : Nat, (cellAt g k l).alive = false → (cellAt g k l).aliveNext = false := by
  induction h with
  | init rnd vao => intro k l _; exact makeCells_aliveNext rnd vao k l
  | step g _ ih =>
      intro k l hdead
      by_cases hin : inB g (k, l)
      · rw [getNextState_cellAt g k l hin] at hdead ⊢
        exact hdead
      · rw [getNextState_cellAt_out g k l hin] at hdead ⊢
        exact ih k l hdead

end GridConstruction

section NeighborCounting

lemma contrib_le_one (g : Grid) (x y i j : Int) : contrib g x y i j ≤ 1 := by
  unfold contrib
  split
  · exact Nat.zero_le 1
  · split
    · exact le_refl 1
    · exact Nat.zero_le 1

lemma contrib_skip (g : Grid) (x y i j : Int) (h : skipNeighbor x y i j = true) :
    contrib g x y i j = 0 := by
  unfold contrib
  rw [if_pos h]

lemma aliveNeighbors_eq (g : Grid) (x y : Int) :
    aliveNeighbors g x y =
      0 + contrib g x y (x-1) (y-1) + contrib g x y (x-1) y + contrib g x y (x-1) (y+1) +
      contrib g x y x (y-1) + contrib g x y x y + contrib g x y x (y+1) +
      contrib g x y (x+1) (y-1) + contrib g x y (x+1) y + contrib g x y (x+1) (y+1) :=
  rfl

lemma skip_true_of (x y i j : Int)
    (h : (i = x ∧ j = y) ∨ i < 0 ∨ j < 0 ∨ i ≥ (columns : Int) ∨ j ≥ (rows : Int)) :
    skipNeighbor x y i j = true := by
  unfold skipNeighbor
  simp only [Bool.or_eq_true, Bool.and_eq_true, beq_iff_eq, decide_eq_true_eq]
  tauto

lemma skip_false_iff (x y i j : Int) :
    skipNeighbor x y i j = false ↔
      (¬(i = x ∧ j = y) ∧ 0 ≤ i ∧ 0 ≤ j ∧ i < (columns : Int) ∧ j < (rows : Int)) := by
  rw [← Bool.not_eq_true]
  unfold skipNeighbor
  simp only [Bool.or_eq_true, Bool.and_eq_true, beq_iff_eq, decide_eq_true_eq, not_or,
    not_lt, not_le]
  omega

lemma contrib_congr_cell (g g' : Grid) (x y i j : Int)
    (h : skipNeighbor x y i j = false →
      (cellAt g' i.toNat j.toNat).alive = (cellAt g i.toNat j.toNat).alive) :
    contrib g' x y i j = contrib g x y i j := by
  unfold contrib
  by_cases hs : skipNeighbor x y i j
  · rw [if_pos hs, if_pos hs]
  · rw [if_neg hs, if_neg hs, h (by simpa using hs)]

lemma contrib_setAlive_ne (g : Grid) (u v : Nat) (b : Bool) (x y i j : Int)
    (h : skipNeighbor x y i j = false → (i.toNat, j.toNat) ≠ (u, v)) :
    contrib (setAlive g u v b) x y i j = contrib g x y i j :=
  contrib_congr_cell g _ x y i j fun hs => by
    unfold setAlive
    rw [cellAt_setCell_ne _ _ _ _ _ _ (h hs)]

lemma aliveNeighbors_zero_of_dead (g : Grid) (x y : Int)
    (h : ∀ i j : Nat, (cellAt g i j).alive = false) :
    aliveNeighbors g x y = 0 := by
  rw [aliveNeighbors_eq]
  simp [contrib, h]

end NeighborCounting

section ClaimC4

/-- C4: on a grid of the source's dimensions (30×30), every element access
`cells[i][j]` performed by `aliveNeighbors` and by `getNextState` is in
bounds: the iterated positions themselves are in bounds, and every neighbor
offset that passes the skip guard has `0 ≤ i`, `0 ≤ j`, `i` within the
outer slice and `j` within the inner slice. -/
theorem access_in_bounds (g : Grid) (hw : WellFormed g) (p : Nat × Nat)
    (hp : p ∈ positionsOf g) :
    inB g p ∧
    ∀ q ∈ neighborOffsets (p.1 : Int) (p.2 : Int),
      skipNeighbor (p.1 : Int) (p.2 : Int) q.1 q.2 = false →
      0 ≤ q.1 ∧ 0 ≤ q.2 ∧ q.1.toNat < g.length ∧
        q.2.toNat < (g.getD q.1.toNat []).length := by
  refine ⟨(mem_positionsOf g p).mp hp, ?_⟩
  intro q _ hskip
  obtain ⟨-, h2, h3, h4, h5⟩ := (skip_false_iff _ _ _ _).mp hskip
  have hlen : q.1.toNat < g.length := by
    rw [hw.1]
    simp only [columns] at h4
    simp only [rows]
    omega
  refine ⟨h2, h3, hlen, ?_⟩
  rw [hw.2 q.1.toNat hlen]
  simp only [rows] at h5
  simp only [columns]
  omega

/-- Witness for C4 at the grid `wGrid`, position (0,0), offset (1,1). -/
theorem access_in_bounds_witness :
    inB wGrid (0, 0) ∧
    ∀ q ∈ neighborOffsets ((0 : Nat) : Int) ((0 : Nat) : Int),
      skipNeighbor ((0 : Nat) : Int) ((0 : Nat) : Int) q.1 q.2 = false →
      0 ≤ q.1 ∧ 0 ≤ q.2 ∧ q.1.toNat < wGrid.length ∧
        q.2.toNat < (wGrid.getD q.1.toNat []).length :=
  access_in_bounds wGrid (by decide) (0, 0) (by decide)

end ClaimC4

section ClaimC3

/-- C3: `aliveNeighbors` implements the non-toroidal boundary policy: the
count is at most 8 always, at most 3 for the corner (0,0), at most 5 for a
non-corner edge cell, and the `alive` state of a cell on an opposite edge
(column `columns-1` or row `rows-1`) never affects the count of corner
(0,0) — skipped offsets are not counted and do not wrap. -/
theorem neighbors_boundary (g : Grid) :
    (∀ x y : Int, aliveNeighbors g x y ≤ 8) ∧
    aliveNeighbors g 0 0 ≤ 3 ∧
    (∀ x y : Int, 0 ≤ x → x < (columns : Int) → 0 ≤ y → y < (rows : Int) →
      ((x = 0 ∨ x = (columns : Int) - 1 ∨ y = 0 ∨ y = (rows : Int) - 1) ∧
        ¬((x = 0 ∨ x = (columns : Int) - 1) ∧ (y = 0 ∨ y = (rows : Int) - 1))) →
      aliveNeighbors g x y ≤ 5) ∧
    (∀ u v : Nat, u = columns - 1 ∨ v = rows - 1 → ∀ b : Bool,
      aliveNeighbors (setAlive g u v b) 0 0 = aliveNeighbors g 0 0) := by
  refine ⟨?_, ?_, ?_, ?_⟩
  · intro x y
    rw [aliveNeighbors_eq]
    have hc := contrib_skip g x y x y (skip_true_of _ _ _ _ (Or.inl ⟨rfl, rfl⟩))
    have b1 := contrib_le_one g x y (x-1) (y-1)
    have b2 := contrib_le_one g x y (x-1) y
    have b3 := contrib_le_one g x y (x-1) (y+1)
    have b4 := contrib_le_one g x y x (y-1)
    have b5 := contrib_le_one g x y x (y+1)
    have b6 := contrib_le_one g x y (x+1) (y-1)
    have b7 := contrib_le_one g x y (x+1) y
    have b8 := contrib_le_one g x y (x+1) (y+1)
    omega
  · rw [aliveNeighbors_eq]
    have s1 := contrib_skip g 0 0 (0-1) (0-1) (skip_true_of _ _ _ _ (by omega))
    have s2 := contrib_skip g 0 0 (0-1) 0 (skip_true_of _ _ _ _ (by omega))
    have s3 := contrib_skip g 0 0 (0-1) (0+1) (skip_true_of _ _ _ _ (by omega))
    have s4 := contrib_skip g 0 0 0 (0-1) (skip_true_of _ _ _ _ (by omega))
    have s5 := contrib_skip g 0 0 0 0 (skip_true_of _ _ _ _ (by omega))
    have s6 := contrib_skip g 0 0 (0+1) (0-1) (skip_true_of _ _ _ _ (by omega))
    have b1 := contrib_le_one g 0 0 0 (0+1)
    have b2 := contrib_le_one g 0 0 (0+1) 0
    have b3 := contrib_le_one g 0 0 (0+1) (0+1)
    omega
  · intro x y hx0 hxC hy0 hyR hcond
    obtain ⟨hedge, hncorner⟩ := hcond
    rw [aliveNeighbors_eq]
    have hc := contrib_skip g x y x y (skip_true_of _ _ _ _ (Or.inl ⟨rfl, rfl⟩))
    have b1 := contrib_le_one g x y (x-1) (y-1)
    have b2 := contrib_le_one g x y (x-1) y
    have b3 := contrib_le_one g x y (x-1) (y+1)
    have b4 := contrib_le_one g x y x (y-1)
    have b5 := contrib_le_one g x y x (y+1)
    have b6 := contrib_le_one g x y (x+1) (y-1)
    have b7 := contrib_le_one g x y (x+1) y
    have b8 := contrib_le_one g x y (x+1) (y+1)
    rcases hedge with hx | hx | hy | hy
    · have s1 := contrib_skip g x y (x-1) (y-1) (skip_true_of _ _ _ _ (by omega))
      have s2 := contrib_skip g x y (x-1) y (skip_true_of _ _ _ _ (by omega))
      have s3 := contrib_skip g x y (x-1) (y+1) (skip_true_of _ _ _ _ (by omega))
      omega
    · have s1 := contrib_skip g x y (x+1) (y-1) (skip_true_of _ _ _ _ (by omega))
      have s2 := contrib_skip g x y (x+1) y (skip_true_of _ _ _ _ (by omega))
      have s3 := contrib_skip g x y (x+1) (y+1) (skip_true_of _ _ _ _ (by omega))
      omega
    · have s1 := contrib_skip g x y (x-1) (y-1) (skip_true_of _ _ _ _ (by omega))
      have s2 := contrib_skip g x y x (y-1) (skip_true_of _ _ _ _ (by omega))
      have s3 := contrib_skip g x y (x+1) (y-1) (skip_true_of _ _ _ _ (by omega))
      omega
    · have s1 := contrib_skip g x y (x-1) (y+1) (skip_true_of _ _ _ _ (by omega))
      have s2 := contrib_skip g x y x (y+1) (skip_true_of _ _ _ _ (by omega))
      have s3 := contrib_skip g x y (x+1) (y+1) (skip_true_of _ _ _ _ (by omega))
      omega
  · intro u v huv b
    simp only [columns, rows] at huv
    have hfar : ∀ i j : Int, -1 ≤ i → i ≤ 1 → -1 ≤ j → j ≤ 1 →
        skipNeighbor 0 0 i j = false → (i.toNat, j.toNat) ≠ (u, v) := by
      intro i j hi1 hi2 hj1 hj2 hs
      obtain ⟨-, h2, h3, -, -⟩ := (skip_false_iff _ _ _ _).mp hs
      intro heq
      rw [Prod.mk.injEq] at heq
      omega
    rw [aliveNeighbors_eq, aliveNeighbors_eq]
    rw [contrib_setAlive_ne g u v b 0 0 (0-1) (0-1)
        (hfar _ _ (by omega) (by omega) (by omega) (by omega)),
      contrib_setAlive_ne g u v b 0 0 (0-1) 0
        (hfar _ _ (by omega) (by omega) (by omega) (by omega)),
      contrib_setAlive_ne g u v b 0 0 (0-1) (0+1)
        (hfar _ _ (by omega) (by omega) (by omega) (by omega)),
      contrib_setAlive_ne g u v b 0 0 0 (0-1)
        (hfar _ _ (by omega) (by omega) (by omega) (by omega)),
      contrib_setAlive_ne g u v b 0 0 0 0
        (hfar _ _ (by omega) (by omega) (by omega) (by omega)),
      contrib_setAlive_ne g u v b 0 0 0 (0+1)
        (hfar _ _ (by omega) (by omega) (by omega) (by omega)),
      contrib_setAlive_ne g u v b 0 0 (0+1) (0-1)
        (hfar _ _ (by omega) (by omega) (by omega) (by omega)),
      contrib_setAlive_ne g u v b 0 0 (0+1) 0
        (hfar _ _ (by omega) (by omega) (by omega) (by omega)),
      contrib_setAlive_ne g u v b 0 0 (0+1) (0+1)
        (hfar _ _ (by omega) (by omega) (by omega) (by omega))]

/-- Witness for C3 at the grid `wGrid`: inner cell (7,9), corner (0,0),
edge cell (0,5), and flipping the opposite corner (29,29). -/
theorem neighbors_boundary_witness :
    aliveNeighbors wGrid 7 9 ≤ 8 ∧
    aliveNeighbors wGrid 0 0 ≤ 3 ∧
    aliveNeighbors wGrid 0 5 ≤ 5 ∧
    aliveNeighbors (setAlive wGrid 29 29 true) 0 0 = aliveNeighbors wGrid 0 0 := by
  obtain ⟨h1, h2, h3, h4⟩ := neighbors_boundary wGrid
  exact ⟨h1 7 9, h2,
    h3 0 5 (by decide) (by decide) (by decide) (by decide) (by decide),
    h4 29 29 (by decide) true⟩

end ClaimC3

section ClaimC8

/-- C8: `aliveNeighbors` examines only the Moore neighborhood minus its
center: the count at an in-bounds (x,y) is unchanged when the `alive`
value of the center cell itself is flipped, and unchanged when the `alive`
value of any cell outside the 3×3 block centered at (x,y) is flipped. -/
theorem neighbors_moore_only (g : Grid) (x y : Nat) (hx : x < columns) (hy : y < rows) :
    (∀ b : Bool, aliveNeighbors (setAlive g x y b) x y = aliveNeighbors g x y) ∧
    (∀ u v : Nat,
      ¬((x : Int) - 1 ≤ u ∧ (u : Int) ≤ x + 1 ∧ (y : Int) - 1 ≤ v ∧ (v : Int) ≤ y + 1) →
      ∀ b : Bool, aliveNeighbors (setAlive g u v b) x y = aliveNeighbors g x y) := by
  constructor
  · intro b
    have hcen : ∀ i j : Int, skipNeighbor x y i j = false → (i.toNat, j.toNat) ≠ (x, y) := by
      intro i j hs
      obtain ⟨hne, h2, h3, -, -⟩ := (skip_false_iff _ _ _ _).mp hs
      intro heq
      rw [Prod.mk.injEq] at heq
      exact hne ⟨by omega, by omega⟩
    rw [aliveNeighbors_eq, aliveNeighbors_eq]
    rw [contrib_setAlive_ne g x y b x y ((x:Int)-1) ((y:Int)-1) (hcen _ _),
      contrib_setAlive_ne g x y b x y ((x:Int)-1) (y:Int) (hcen _ _),
      contrib_setAlive_ne g x y b x y ((x:Int)-1) ((y:Int)+1) (hcen _ _),
      contrib_setAlive_ne g x y b x y (x:Int) ((y:Int)-1) (hcen _ _),
      contrib_setAlive_ne g x y b x y (x:Int) (y:Int) (hcen _ _),
      contrib_setAlive_ne g x y b x y (x:Int) ((y:Int)+1) (hcen _ _),
      contrib_setAlive_ne g x y b x y ((x:Int)+1) ((y:Int)-1) (hcen _ _),
      contrib_setAlive_ne g x y b x y ((x:Int)+1) (y:Int) (hcen _ _),
      contrib_setAlive_ne g x y b x y ((x:Int)+1) ((y:Int)+1) (hcen _ _)]
  · intro u v hmoore b
    have hout : ∀ i j : Int, (x:Int) - 1 ≤ i → i ≤ (x:Int) + 1 →
        (y:Int) - 1 ≤ j → j ≤ (y:Int) + 1 →
        skipNeighbor x y i j = false → (i.toNat, j.toNat) ≠ (u, v) := by
      intro i j hi1 hi2 hj1 hj2 hs
      obtain ⟨-, h2, h3, -, -⟩ := (skip_false_iff _ _ _ _).mp hs
      intro heq
      rw [Prod.mk.injEq] at heq
      exact hmoore ⟨by omega, by omega, by omega, by omega⟩
    rw [aliveNeighbors_eq, aliveNeighbors_eq]
    rw [contrib_setAlive_ne g u v b x y ((x:Int)-1) ((y:Int)-1)
        (hout _ _ (by omega) (by omega) (by omega) (by omega)),
      contrib_setAlive_ne g u v b x y ((x:Int)-1) (y:Int)
        (hout _ _ (by omega) (by omega) (by omega) (by omega)),
      contrib_setAlive_ne g u v b x y ((x:Int)-1) ((y:Int)+1)
        (hout _ _ (by omega) (by omega) (by omega) (by omega)),
      contrib_setAlive_ne g u v b x y (x:Int) ((y:Int)-1)
        (hout _ _ (by omega) (by omega) (by omega) (by omega)),
      contrib_setAlive_ne g u v b x y (x:Int) (y:Int)
        (hout _ _ (by omega) (by omega) (by omega) (by omega)),
      contrib_setAlive_ne g u v b x y (x:Int) ((y:Int)+1)
        (hout _ _ (by omega) (by omega) (by omega) (by omega)),
      contrib_setAlive_ne g u v b x y ((x:Int)+1) ((y:Int)-1)
        (hout _ _ (by omega) (by omega) (by omega) (by omega)),
      contrib_setAlive_ne g u v b x y ((x:Int)+1) (y:Int)
        (hout _ _ (by omega) (by omega) (by omega) (by omega)),
      contrib_setAlive_ne g u v b x y ((x:Int)+1) ((y:Int)+1)
        (hout _ _ (by omega) (by omega) (by omega) (by omega))]

/-- Witness for C8 at `wGrid`, cell (4,4): flipping the center and flipping
the distant cell (20,20). -/
theorem neighbors_moore_only_witness :
    aliveNeighbors (setAlive wGrid 4 4 true) 4 4 = aliveNeighbors wGrid 4 4 ∧
    aliveNeighbors (setAlive wGrid 20 20 true) 4 4 = aliveNeighbors wGrid 4 4 := by
  obtain ⟨h1, h2⟩ := neighbors_moore_only wGrid 4 4 (by decide) (by decide)
  exact ⟨h1 true, h2 20 20 (by decide) true⟩

end ClaimC8

section ClaimC1

/-- C1: on every grid reachable between advance calls, one call of
`getNextState` gives each in-bounds cell the new `alive` value prescribed
by the B3/S23 decision table applied to its pre-transition `alive` value
and pre-transition live-neighbor count. -/
theorem advance_b3s23 (g : Grid) (h : Reachable g) (k l : Nat) (hin : inB g (k, l)) :
    (cellAt (getNextState g) k l).alive =
      lifeTable (cellAt g k l).alive (aliveNeighbors g (k : Int) (l : Int)) := by
  rw [getNextState_cellAt g k l hin]
  show nextAliveNextVal g k l = _
  unfold nextAliveNextVal lifeTable
  by_cases ha : (cellAt g k l).alive
  · by_cases hn : aliveNeighbors g (k : Int) (l : Int) < 2 ∨
        aliveNeighbors g (k : Int) (l : Int) > 3
    · have hd : (decide (aliveNeighbors g (k : Int) (l : Int) < 2) ||
          decide (aliveNeighbors g (k : Int) (l : Int) > 3)) = true := by
        rcases hn with hn | hn <;> simp [hn]
      simp [ha, hd, if_pos hn]
    · have hd : (decide (aliveNeighbors g (k : Int) (l : Int) < 2) ||
          decide (aliveNeighbors g (k : Int) (l : Int) > 3)) = false := by
        push_neg at hn
        simp only [Bool.or_eq_false_iff, decide_eq_false_iff_not, not_lt]
        exact ⟨hn.1, hn.2⟩
      simp [ha, hd, if_neg hn]
  · have ha2 : (cellAt g k l).alive = false := by simpa using ha
    have hnext := reachable_deadNext g h k l ha2
    by_cases hn : aliveNeighbors g (k : Int) (l : Int) = 3
    · simp [ha2, hn]
    · simp [ha2, hn, hnext]

/-- Witness for C1 at a freshly constructed grid and cell (1,1). -/
theorem advance_b3s23_witness :
    (cellAt (getNextState wGrid) 1 1).alive =
      lifeTable (cellAt wGrid 1 1).alive (aliveNeighbors wGrid 1 1) :=
  advance_b3s23 wGrid (Reachable.init wRnd fun _ _ => 0) 1 1 (by decide)

end ClaimC1

section ClaimC5

/-- C5: at entry to `getNextState` on any reachable grid, a cell whose
`alive` is false also has `aliveNext` false; consequently the empty
dead-cell branch of the switch is equivalent to writing `aliveNext = false`
explicitly, and after the call the two buffers agree again. -/
theorem deadcell_invariant (g : Grid) (h : Reachable g) (k l : Nat) (hin : inB g (k, l)) :
    ((cellAt g k l).alive = false → (cellAt g k l).aliveNext = false) ∧
    nextAliveNextVal g k l = nextAliveNextValExplicit g k l ∧
    (cellAt (getNextState g) k l).alive = (cellAt (getNextState g) k l).aliveNext := by
  refine ⟨reachable_deadNext g h k l, ?_, ?_⟩
  · unfold nextAliveNextVal nextAliveNextValExplicit
    by_cases ha : (cellAt g k l).alive
    · simp [ha]
    · have ha2 : (cellAt g k l).alive = false := by simpa using ha
      have hnext := reachable_deadNext g h k l ha2
      by_cases hn : aliveNeighbors g (k : Int) (l : Int) = 3
      · simp [ha2, hn]
      · simp [ha2, hn, hnext]
  · rw [getNextState_cellAt g k l hin]

/-- Witness for C5 at a freshly constructed grid and cell (2,3). -/
theorem deadcell_invariant_witness :
    ((cellAt wGrid 2 3).alive = false → (cellAt wGrid 2 3).aliveNext = false) ∧
    nextAliveNextVal wGrid 2 3 = nextAliveNextValExplicit wGrid 2 3 ∧
    (cellAt (getNextState wGrid) 2 3).alive = (cellAt (getNextState wGrid) 2 3).aliveNext :=
  deadcell_invariant wGrid (Reachable.init wRnd fun _ _ => 0) 2 3 (by decide)

end ClaimC5

section ClaimC9

/-- C9: `getNextState` changes only the `alive` and `aliveNext` fields: for
every in-bounds cell, the coordinate fields and drawable handle are the
same after the call as before, and the shape of the grid is unchanged. -/
theorem advance_frame (g : Grid) (k l : Nat) (hin : inB g (k, l)) :
    (cellAt (getNextState g) k l).x = (cellAt g k l).x ∧
    (cellAt (getNextState g) k l).y = (cellAt g k l).y ∧
    (cellAt (getNextState g) k l).drawable = (cellAt g k l).drawable ∧
    (getNextState g).length = g.length ∧
    ((getNextState g).getD k []).length = (g.getD k []).length := by
  rw [getNextState_cellAt g k l hin]
  exact ⟨rfl, rfl, rfl, length_getNextState g, rowLen_getNextState g k⟩

/-- Witness for C9 at `wGrid` and cell (0,1). -/
theorem advance_frame_witness :
    (cellAt (getNextState wGrid) 0 1).x = (cellAt wGrid 0 1).x ∧
    (cellAt (getNextState wGrid) 0 1).y = (cellAt wGrid 0 1).y ∧
    (cellAt (getNextState wGrid) 0 1).drawable = (cellAt wGrid 0 1).drawable ∧
    (getNextState wGrid).length = wGrid.length ∧
    ((getNextState wGrid).getD 0 []).length = (wGrid.getD 0 []).length :=
  advance_frame wGrid 0 1 (by decide)

end ClaimC9

section ClaimC7

/-- C7: `getNextState` is deterministic: two structurally identical grids
(same dimensions, same `alive` and `aliveNext` cell for cell — drawable
handles and coordinates may differ) yield structurally identical results. -/
theorem advance_deterministic (g g2 : Grid) (hw : WellFormed g) (hw2 : WellFormed g2)
    (hid : StructIdent g g2) : StructIdent (getNextState g) (getNextState g2) := by
  obtain ⟨hlen, hrowlen, hcell⟩ := hid
  have hinb : ∀ k l : Nat, inB g (k, l) ↔ inB g2 (k, l) := by
    intro k l
    unfold inB
    constructor
    · rintro ⟨h1, h2⟩
      exact ⟨hlen ▸ h1, by rw [← hrowlen k h1]; exact h2⟩
    · rintro ⟨h1, h2⟩
      have h1g : k < g.length := by rw [hlen]; exact h1
      exact ⟨h1g, by rw [hrowlen k h1g]; exact h2⟩
  have halive : ∀ k l : Nat, (cellAt g2 k l).alive = (cellAt g k l).alive := by
    intro k l
    by_cases hin : inB g (k, l)
    · exact ((hcell k hin.1 l hin.2).1).symm
    · rw [cellAt_out_of_bounds g k l hin,
        cellAt_out_of_bounds g2 k l (fun hc => hin ((hinb k l).mpr hc))]
  have hnv : ∀ k l : Nat, inB g (k, l) → nextAliveNextVal g2 k l = nextAliveNextVal g k l := by
    intro k l hin
    simp only [nextAliveNextVal]
    rw [aliveNeighbors_congr g g2 (k : Int) (l : Int) halive, halive k l,
      ← (hcell k hin.1 l hin.2).2]
  refine ⟨?_, ?_, ?_⟩
  · rw [length_getNextState, length_getNextState, hlen]
  · intro i hi
    rw [rowLen_getNextState, rowLen_getNextState]
    exact hrowlen i (by rwa [length_getNextState] at hi)
  · intro i hi j hj
    rw [length_getNextState] at hi
    rw [rowLen_getNextState] at hj
    have hin : inB g (i, j) := ⟨hi, hj⟩
    rw [getNextState_cellAt g i j hin, getNextState_cellAt g2 i j ((hinb i j).mp hin)]
    exact ⟨(hnv i j hin).symm, (hnv i j hin).symm⟩

/-- Witness for C7: `wGrid` and `wGrid2` share all state but differ in
drawable handles. -/
theorem advance_deterministic_witness :
    StructIdent (getNextState wGrid) (getNextState wGrid2) :=
  advance_deterministic wGrid wGrid2 (by decide) (by decide) (by decide)

end ClaimC7

section ClaimC2

/-- C2: `getNextState` is order-independent: every neighbor count of pass 1
reads only pre-transition `alive` values and every pass-2 copy touches only
its own cell, so running pass 1 over any permutation of the iteration
space and then pass 2 over any permutation yields exactly the grid the
source's row-major order produces. -/
theorem advance_order_independent (g : Grid) (hw : WellFormed g)
    (ps1 ps2 : List (Nat × Nat))
    (h1 : ps1.Perm (positionsOf g)) (h2 : ps2.Perm (positionsOf g)) :
    pass2Seq ps2 (pass1Seq ps1 g) = getNextState g := by
  apply grid_ext
  · rw [length_pass2Seq, length_pass1Seq, length_getNextState]
  · intro i _
    rw [rowLen_pass2Seq, rowLen_pass1Seq, rowLen_getNextState]
  · intro i j
    rw [twoPass_cellAt g ps1 ps2 h1 h2 i j]
    by_cases hin : inB g (i, j)
    · rw [if_pos hin, getNextState_cellAt g i j hin]
    · rw [if_neg hin, getNextState_cellAt_out g i j hin]

/-- Witness for C2: running pass 1 in reversed order over `wGrid` gives
the row-major result. -/
theorem advance_order_independent_witness :
    pass2Seq (positionsOf wGrid) (pass1Seq (positionsOf wGrid).reverse wGrid) =
      getNextState wGrid :=
  advance_order_independent wGrid (by decide)
    (positionsOf wGrid).reverse (positionsOf wGrid)
    (List.reverse_perm _) (List.Perm.refl _)

end ClaimC2

section ClaimC6

/-- C6 counterexample: the claim as stated (only the `alive` fields of the
input are required to be false) fails on the code: in the grid `cBad`
every `alive` is false but every `aliveNext` is a stale `true`, and the
empty dead-cell branch of the switch keeps that stale value, so one
`getNextState` call resurrects the cells. -/
theorem alldead_claim_counterexample :
    allDead cBad ∧ ¬ allDead (getNextState cBad) := by
  constructor
  · decide
  · intro hall
    have h0 : (0 : Nat) < (getNextState cBad).length := by
      rw [length_getNextState]
      decide
    have h0r : (0 : Nat) < ((getNextState cBad).getD 0 []).length := by
      rw [rowLen_getNextState]
      decide
    have hfalse := hall 0 h0 0 h0r
    rw [getNextState_cellAt cBad 0 0 (by decide)] at hfalse
    exact absurd hfalse (by decide)

/-- C6 amended: a grid in which every cell has both `alive` and `aliveNext`
false (the true all-zero state, as every reachable all-dead grid has) is a
fixed point: after `getNextState` every cell's `alive` is still false. -/
theorem alldead_fixed_point (g : Grid) (hw : WellFormed g)
    (h : ∀ k, k < g.length → ∀ l, l < (g.getD k []).length →
      (cellAt g k l).alive = false ∧ (cellAt g k l).aliveNext = false) :
    allDead (getNextState g) := by
  have hall : ∀ k l : Nat, (cellAt g k l).alive = false := by
    intro k l
    by_cases hin : k < g.length ∧ l < (g.getD k []).length
    · exact (h k hin.1 l hin.2).1
    · rw [cellAt_out_of_bounds g k l hin]
      rfl
  intro i hi j hj
  rw [length_getNextState] at hi
  rw [rowLen_getNextState] at hj
  rw [getNextState_cellAt g i j ⟨hi, hj⟩]
  show nextAliveNextVal g i j = false
  unfold nextAliveNextVal
  rw [aliveNeighbors_zero_of_dead g _ _ hall]
  simp [hall i j, (h i hi j hj).2]

/-- Witness for amended C6 at the all-zero 30×30 grid. -/
theorem alldead_fixed_point_witness : allDead (getNextState wDead) :=
  alldead_fixed_point wDead (by decide) (by decide)

end ClaimC6

section ClaimC10

/-- C10: `makeCells` builds a well-formed `rows`×`columns` grid; the cell
stored at `cells[x][y]` carries coordinates (x, y), `aliveNext = false`,
and an `alive` value taken from its own entry of the random stream (the
stream index `x*columns + y` is injective over the grid, so no two cells
share a draw; uniformity of `rand.Intn(2)` itself is a property of Go's
`math/rand` and is modelled by the oracle `rnd`). -/
theorem makecells_shape (rnd : Nat → Bool) (vao : Nat → Nat → Nat) :
    (makeCells rnd vao).length = rows ∧
    (∀ i, i < (makeCells rnd vao).length →
      ((makeCells rnd vao).getD i []).length = columns) ∧
    (∀ x y : Nat, x < rows → y < columns →
      cellAt (makeCells rnd vao) x y =
        { drawable := vao x y, alive := rnd (x * columns + y), aliveNext := false,
          x := (x : Int), y := (y : Int) }) ∧
    (∀ x y u v : Nat, y < columns → v < columns → (x, y) ≠ (u, v) →
      x * columns + y ≠ u * columns + v) := by
  refine ⟨(makeCells_wf rnd vao).1, (makeCells_wf rnd vao).2, ?_, ?_⟩
  · intro x y hx hy
    rw [makeCells_cellAt rnd vao x y hx hy]
    rfl
  · intro x y u v hy hv hne heq
    apply hne
    simp only [columns] at heq hy hv
    have hx : x = u := by omega
    have hyv : y = v := by omega
    rw [hx, hyv]

/-- Witness for C10 at the stream `wRnd` and a zero vao oracle. -/
theorem makecells_shape_witness :
    wGrid.length = rows ∧
    cellAt wGrid 3 4 =
      { drawable := 0, alive := wRnd (3 * columns + 4), aliveNext := false,
        x := ((3 : Nat) : Int), y := ((4 : Nat) : Int) } ∧
    3 * columns + 4 ≠ 5 * columns + 6 := by
  obtain ⟨h1, h2, h3, h4⟩ := makecells_shape wRnd fun _ _ => 0
  exact ⟨h1, h3 3 4 (by decide) (by decide), h4 3 4 5 6 (by decide) (by decide) (by decide)⟩

end ClaimC10

end GameOfLife
